import Mathlib

/-!
Verification of the visualgl camera subsystem.

The development shallowly embeds the camera code (projection.py, camera.py,
camera_controller.py) over exact rational arithmetic.  Floating point numbers
are modelled as rationals; a statement that the Python code satisfies "within
floating tolerance" is modelled as exact equality.

Angles: the Python code consumes an angle theta only through
cos(theta/2) and sin(theta/2) (quaternion construction from axis/angle).
The embedding therefore represents an angle by the pair (c, s) of the cosine
and sine of the half angle, constrained to the unit circle where a theorem
needs it.  Similarly a vertical field of view is consumed only through
tan(vertical_fov/2), so the perspective projection stores that tangent.

Square roots: Python computes floating point square roots; the embedding uses
an exact partial rational square root and signals inputs whose square root is
irrational with a distinguished error value, which no theorem ever hits.
-/

/-- Error outcomes of the embedded Python code.  cameraError models the
CameraError exception of the repository; zeroDivision models a Python
ZeroDivisionError; typeError and assertionFailed model TypeError and a failed
assert; notRepresentable marks inputs whose exact value leaves the rational
fragment (an irrational square root), outside the scope of every theorem. -/
inductive PyErr where
  | cameraError
  | zeroDivision
  | typeError
  | assertionFailed
  | notRepresentable
deriving DecidableEq, Repr

/-- Exact natural square root by bounded search: the largest k below the
bound with k * k = n, if any. -/
def sqrtUpTo (n : Nat) : Nat → Option Nat
  | 0 => if 0 * 0 = n then some 0 else none
  | k + 1 => if (k + 1) * (k + 1) = n then some (k + 1) else sqrtUpTo n k

/-- Exact rational square root: some r with r * r = q and 0 <= r, when such a
rational exists, and none otherwise. -/
def ratSqrt (q : ℚ) : Option ℚ :=
  if q < 0 then none
  else
    match sqrtUpTo q.num.natAbs q.num.natAbs, sqrtUpTo q.den q.den with
    | some sn, some sd => some ((sn : ℚ) / (sd : ℚ))
    | _, _ => none

/-- Three component rational vector, embedding spatial3d Vector3. -/
structure Vec3 where
  x : ℚ
  y : ℚ
  z : ℚ
deriving DecidableEq, Repr

namespace Vec3

def add (a b : Vec3) : Vec3 := ⟨a.x + b.x, a.y + b.y, a.z + b.z⟩

def sub (a b : Vec3) : Vec3 := ⟨a.x - b.x, a.y - b.y, a.z - b.z⟩

def neg (a : Vec3) : Vec3 := ⟨-a.x, -a.y, -a.z⟩

def smul (c : ℚ) (a : Vec3) : Vec3 := ⟨c * a.x, c * a.y, c * a.z⟩

/-- Dot product; spatial3d exposes it as the * operator between vectors. -/
def dot (a b : Vec3) : ℚ := a.x * b.x + a.y * b.y + a.z * b.z

/-- Cross product; spatial3d exposes it as the % operator between vectors. -/
def cross (a b : Vec3) : Vec3 :=
  ⟨a.y * b.z - a.z * b.y, a.z * b.x - a.x * b.z, a.x * b.y - a.y * b.x⟩

/-- Squared Euclidean length. -/
def length2 (a : Vec3) : ℚ := a.x * a.x + a.y * a.y + a.z * a.z

def zero : Vec3 := ⟨0, 0, 0⟩

def unitX : Vec3 := ⟨1, 0, 0⟩

def unitY : Vec3 := ⟨0, 1, 0⟩

def unitZ : Vec3 := ⟨0, 0, 1⟩

/-- Squared distance between two points. -/
def dist2 (a b : Vec3) : ℚ := length2 (sub a b)

end Vec3

instance : Add Vec3 := ⟨Vec3.add⟩

instance : Sub Vec3 := ⟨Vec3.sub⟩

instance : Neg Vec3 := ⟨Vec3.neg⟩

instance : SMul ℚ Vec3 := ⟨Vec3.smul⟩

/-- Exact length of a vector; errors with notRepresentable when irrational. -/
def Vec3.lengthE (v : Vec3) : Except PyErr ℚ :=
  match ratSqrt v.length2 with
  | some r => .ok r
  | none => .error .notRepresentable

/-- Embedding of spatial3d Vector3.normalize: divides the vector by its
length; a zero length vector raises ZeroDivisionError in Python. -/
def Vec3.normalizeE (v : Vec3) : Except PyErr Vec3 :=
  match ratSqrt v.length2 with
  | some l => if l = 0 then .error .zeroDivision else .ok ((1 / l) • v)
  | none => .error .notRepresentable

/-- Rational quaternion, embedding spatial3d Quaternion (w scalar part). -/
structure Quat where
  w : ℚ
  x : ℚ
  y : ℚ
  z : ℚ
deriving DecidableEq, Repr

namespace Quat

/-- Hamilton product. -/
def mul (a b : Quat) : Quat :=
  ⟨a.w * b.w - a.x * b.x - a.y * b.y - a.z * b.z,
   a.w * b.x + a.x * b.w + a.y * b.z - a.z * b.y,
   a.w * b.y - a.x * b.z + a.y * b.w + a.z * b.x,
   a.w * b.z + a.x * b.y - a.y * b.x + a.z * b.w⟩

def conj (a : Quat) : Quat := ⟨a.w, -a.x, -a.y, -a.z⟩

def norm2 (a : Quat) : ℚ := a.w * a.w + a.x * a.x + a.y * a.y + a.z * a.z

def one : Quat := ⟨1, 0, 0, 0⟩

/-- Purely imaginary quaternion holding a vector. -/
def pure (v : Vec3) : Quat := ⟨0, v.x, v.y, v.z⟩

/-- Vector part of a quaternion. -/
def vec (a : Quat) : Vec3 := ⟨a.x, a.y, a.z⟩

/-- Rotation of a vector by a quaternion, q v q-conjugate; for a unit
quaternion this is the represented rotation. -/
def rotate (q : Quat) (v : Vec3) : Vec3 := ((q.mul (pure v)).mul q.conj).vec

/-- Quaternion for a rotation about a unit axis, built from the cosine and
sine of the half angle, matching the axis angle constructor of spatial3d. -/
def ofAxisHalf (axis : Vec3) (c s : ℚ) : Quat :=
  ⟨c, s * axis.x, s * axis.y, s * axis.z⟩

end Quat

instance : Mul Quat := ⟨Quat.mul⟩

/-- Rigid transform as rotation quaternion plus translation, embedding
spatial3d Transform. -/
structure Transform where
  q : Quat
  t : Vec3
deriving DecidableEq, Repr

namespace Transform

/-- Composition: apply b first, then a, matching spatial3d Transform
multiplication. -/
def compose (a b : Transform) : Transform := ⟨a.q.mul b.q, a.q.rotate b.t + a.t⟩

def identity : Transform := ⟨Quat.one, Vec3.zero⟩

/-- Pure translation, Transform.from_axis_angle_translation with zero angle. -/
def translate (v : Vec3) : Transform := ⟨Quat.one, v⟩

/-- Pure rotation about an axis, Transform.from_axis_angle_translation with a
zero translation; (c, s) is the cosine and sine of the half angle. -/
def fromAxisAngle (axis : Vec3) (c s : ℚ) : Transform := ⟨Quat.ofAxisHalf axis c s, Vec3.zero⟩

/-- Apply to a point: rotate and translate. -/
def applyPoint (T : Transform) (p : Vec3) : Vec3 := T.q.rotate p + T.t

/-- Apply to a vector: rotate only. -/
def applyVector (T : Transform) (v : Vec3) : Vec3 := T.q.rotate v

/-- Inverse of a rigid transform, valid for a unit rotation quaternion,
matching spatial3d Transform.inverse. -/
def inverse (T : Transform) : Transform := ⟨T.q.conj, -(T.q.conj.rotate T.t)⟩

end Transform

instance : Mul Transform := ⟨Transform.compose⟩

/-- Half angle representation of an angle theta: c and s stand for
cos(theta/2) and sin(theta/2), the only forms in which the embedded code
consumes an angle. -/
structure Angle where
  c : ℚ
  s : ℚ
deriving DecidableEq, Repr

/-- The zero test the Python code performs on a raw angle, transported to the
half angle representation: theta = 0 exactly when (c, s) = (1, 0) for the
angles arising at runtime. -/
def Angle.isZero (a : Angle) : Prop := a.c = 1 ∧ a.s = 0

instance (a : Angle) : Decidable a.isZero := by unfold Angle.isZero; infer_instance

/-- Rational 4 by 4 matrix with row-column named entries, embedding spatial3d
Matrix4. -/
structure Mat4 where
  m11 : ℚ
  m12 : ℚ
  m13 : ℚ
  m14 : ℚ
  m21 : ℚ
  m22 : ℚ
  m23 : ℚ
  m24 : ℚ
  m31 : ℚ
  m32 : ℚ
  m33 : ℚ
  m34 : ℚ
  m41 : ℚ
  m42 : ℚ
  m43 : ℚ
  m44 : ℚ
deriving DecidableEq, Repr

namespace Mat4

/-- Constructor from a 16 element list in column major order (index 4 * col +
row), the storage order of the spatial3d Matrix4 constructor used by
projection.py; entry names in the source (m11, m34, m43, ...) coincide with
this reading at every use site. -/
def ofColMajor (e0 e1 e2 e3 e4 e5 e6 e7 e8 e9 e10 e11 e12 e13 e14 e15 : ℚ) : Mat4 :=
  ⟨e0, e4, e8, e12,
   e1, e5, e9, e13,
   e2, e6, e10, e14,
   e3, e7, e11, e15⟩

/-- Standard matrix product. -/
def mul (a b : Mat4) : Mat4 :=
  ⟨a.m11 * b.m11 + a.m12 * b.m21 + a.m13 * b.m31 + a.m14 * b.m41,
   a.m11 * b.m12 + a.m12 * b.m22 + a.m13 * b.m32 + a.m14 * b.m42,
   a.m11 * b.m13 + a.m12 * b.m23 + a.m13 * b.m33 + a.m14 * b.m43,
   a.m11 * b.m14 + a.m12 * b.m24 + a.m13 * b.m34 + a.m14 * b.m44,
   a.m21 * b.m11 + a.m22 * b.m21 + a.m23 * b.m31 + a.m24 * b.m41,
   a.m21 * b.m12 + a.m22 * b.m22 + a.m23 * b.m32 + a.m24 * b.m42,
   a.m21 * b.m13 + a.m22 * b.m23 + a.m23 * b.m33 + a.m24 * b.m43,
   a.m21 * b.m14 + a.m22 * b.m24 + a.m23 * b.m34 + a.m24 * b.m44,
   a.m31 * b.m11 + a.m32 * b.m21 + a.m33 * b.m31 + a.m34 * b.m41,
   a.m31 * b.m12 + a.m32 * b.m22 + a.m33 * b.m32 + a.m34 * b.m42,
   a.m31 * b.m13 + a.m32 * b.m23 + a.m33 * b.m33 + a.m34 * b.m43,
   a.m31 * b.m14 + a.m32 * b.m24 + a.m33 * b.m34 + a.m34 * b.m44,
   a.m41 * b.m11 + a.m42 * b.m21 + a.m43 * b.m31 + a.m44 * b.m41,
   a.m41 * b.m12 + a.m42 * b.m22 + a.m43 * b.m32 + a.m44 * b.m42,
   a.m41 * b.m13 + a.m42 * b.m23 + a.m43 * b.m33 + a.m44 * b.m43,
   a.m41 * b.m14 + a.m42 * b.m24 + a.m43 * b.m34 + a.m44 * b.m44⟩

/-- Identity matrix. -/
def idMat : Mat4 :=
  ⟨1, 0, 0, 0,
   0, 1, 0, 0,
   0, 0, 1, 0,
   0, 0, 0, 1⟩

end Mat4

/-- Python truthiness defaulting, a or d, for optional float parameters: None
and 0.0 both select the default. -/
def pyOr (v : Option ℚ) (d : ℚ) : ℚ :=
  match v with
  | none => d
  | some q => if q = 0 then d else q

/-- Orthographic projection state: aspect, near and far clip distances, and
the width between the left and right clipping planes. -/
structure OrthoProjection where
  aspect : ℚ
  near_clip : ℚ
  far_clip : ℚ
  width : ℚ
deriving DecidableEq, Repr

namespace OrthoProjection

/-- Minimum allowable width used by zoom. -/
def WIDTH_MIN : ℚ := 1 / 100

/-- Embedding of OrthoProjection construction: Projection base defaults
aspect to 1.0, near_clip to 0.1, far_clip to 10000 via Python or-defaulting;
width is stored as passed (its Python default is 1.0).  No validation is
performed anywhere in the constructors. -/
def init (aspect near_clip far_clip : Option ℚ) (width : ℚ) : OrthoProjection :=
  ⟨pyOr aspect 1, pyOr near_clip (1 / 10), pyOr far_clip 10000, width⟩

def depth (p : OrthoProjection) : ℚ := p.far_clip - p.near_clip

def height (p : OrthoProjection) : ℚ := p.width / p.aspect

/-- Setter for height: stores width = height * aspect. -/
def setHeight (p : OrthoProjection) (h : ℚ) : OrthoProjection :=
  { p with width := h * p.aspect }

/-- The orthographic projection matrix, as built in the source. -/
def matrix (p : OrthoProjection) : Mat4 :=
  let m11 := 2 / p.width
  let m22 := 2 / p.height
  let m33 := -2 / p.depth
  let m34 := -(p.far_clip + p.near_clip) / p.depth
  Mat4.ofColMajor m11 0 0 0 0 m22 0 0 0 0 m33 0 0 0 m34 1

/-- The matrix the source returns from OrthoProjection.inverse, exactly as
written there. -/
def inverseMat (p : OrthoProjection) : Mat4 :=
  let m11 := p.width / 2
  let m22 := p.height / 2
  let m33 := -p.depth / 2
  let m43 := -(p.far_clip + p.near_clip) / 2
  Mat4.ofColMajor m11 0 0 0 0 m22 0 0 0 0 m33 m43 0 0 0 1

/-- Embedding of OrthoProjection.resize. -/
def resize (p : OrthoProjection) (w h : ℚ) : OrthoProjection :=
  let new_aspect := w / h
  { p with width := p.width * (new_aspect / p.aspect), aspect := new_aspect }

/-- Embedding of OrthoProjection.zoom: add amount to width, floored at
WIDTH_MIN. -/
def zoom (p : OrthoProjection) (amount : ℚ) : OrthoProjection :=
  { p with width := max (p.width + amount) WIDTH_MIN }

end OrthoProjection

/-- Perspective projection state.  The Python class stores vertical_fov and
consumes it only through tan(vertical_fov/2); the embedding stores that
tangent directly as tanHalfVfov. -/
structure PerspectiveProjection where
  aspect : ℚ
  near_clip : ℚ
  far_clip : ℚ
  tanHalfVfov : ℚ
deriving DecidableEq, Repr

namespace PerspectiveProjection

/-- Embedding of PerspectiveProjection construction; vertical_fov (here its
half tangent) is a required argument, the base class defaults the rest. -/
def init (aspect near_clip far_clip : Option ℚ) (tanHalfVfov : ℚ) : PerspectiveProjection :=
  ⟨pyOr aspect 1, pyOr near_clip (1 / 10), pyOr far_clip 10000, tanHalfVfov⟩

def depth (p : PerspectiveProjection) : ℚ := p.far_clip - p.near_clip

/-- The perspective scale factor 1 / tan(vertical_fov / 2). -/
def scaleFactor (p : PerspectiveProjection) : ℚ := 1 / p.tanHalfVfov

/-- The perspective projection matrix, as built in the source. -/
def matrix (p : PerspectiveProjection) : Mat4 :=
  let m11 := p.scaleFactor / p.aspect
  let m22 := p.scaleFactor
  let m33 := -(p.far_clip + p.near_clip) / p.depth
  let m34 := -2 * p.far_clip * p.near_clip / p.depth
  Mat4.ofColMajor m11 0 0 0 0 m22 0 0 0 0 m33 (-1) 0 0 m34 0

/-- The matrix the source returns from PerspectiveProjection.inverse, exactly
as written there, including the denominators -(far + near) and
2 * far + near. -/
def inverseMat (p : PerspectiveProjection) : Mat4 :=
  let m11 := p.aspect / p.scaleFactor
  let m22 := 1 / p.scaleFactor
  let m43 := -p.depth / (-(p.far_clip + p.near_clip))
  let m44 := (p.far_clip + p.near_clip) / (2 * p.far_clip + p.near_clip)
  Mat4.ofColMajor m11 0 0 0 0 m22 0 0 0 0 0 m43 0 0 (-1) m44

/-- Embedding of PerspectiveProjection.resize: updates only the aspect. -/
def resize (p : PerspectiveProjection) (w h : ℚ) : PerspectiveProjection :=
  { p with aspect := w / h }

end PerspectiveProjection

/-- A projection is one of the two concrete variants. -/
inductive Projection where
  | ortho (p : OrthoProjection)
  | persp (p : PerspectiveProjection)
deriving DecidableEq, Repr

namespace Projection

def aspect : Projection → ℚ
  | .ortho p => p.aspect
  | .persp p => p.aspect

def near_clip : Projection → ℚ
  | .ortho p => p.near_clip
  | .persp p => p.near_clip

def far_clip : Projection → ℚ
  | .ortho p => p.far_clip
  | .persp p => p.far_clip

def matrix : Projection → Mat4
  | .ortho p => p.matrix
  | .persp p => p.matrix

def inverseMat : Projection → Mat4
  | .ortho p => p.inverseMat
  | .persp p => p.inverseMat

def isPersp : Projection → Bool
  | .ortho _ => false
  | .persp _ => true

/-- Clip space w coordinate of a camera space point under the projection
matrix (fourth row of the homogeneous product). -/
def clipW (pr : Projection) (p : Vec3) : ℚ :=
  let M := pr.matrix
  M.m41 * p.x + M.m42 * p.y + M.m43 * p.z + M.m44

/-- Modelled from the spec: Projection.project, called by Camera.fit but
absent from projection.py in this tree.  Per the spec the matrix maps camera
space to clip space and the fit comments use NDC.x = x / z style coordinates,
so project applies the homogeneous matrix to the point and performs the
perspective divide by clip w.  Division by a zero w is a Python
ZeroDivisionError; callers in this file guard w before using the total
rational division. -/
def project (pr : Projection) (p : Vec3) : Vec3 :=
  let M := pr.matrix
  let cx := M.m11 * p.x + M.m12 * p.y + M.m13 * p.z + M.m14
  let cy := M.m21 * p.x + M.m22 * p.y + M.m23 * p.z + M.m24
  let cz := M.m31 * p.x + M.m32 * p.y + M.m33 * p.z + M.m34
  let cw := clipW pr p
  ⟨cx / cw, cy / cw, cz / cw⟩

end Projection

/-- Axis aligned bounding box, embedding the spatial3d AABB as used by the
camera code (center, corners, contains, sphere radius). -/
structure AABB where
  lo : Vec3
  hi : Vec3
deriving DecidableEq, Repr

namespace AABB

def center (b : AABB) : Vec3 := (1 / 2 : ℚ) • (b.lo + b.hi)

/-- The eight corners.  The ordering of the spatial3d list is not observable
in the properties proved here (every selection made from it is invariant
under reordering at the inputs used), so a fixed enumeration is chosen. -/
def corners (b : AABB) : List Vec3 :=
  [⟨b.lo.x, b.lo.y, b.lo.z⟩, ⟨b.lo.x, b.lo.y, b.hi.z⟩,
   ⟨b.lo.x, b.hi.y, b.lo.z⟩, ⟨b.lo.x, b.hi.y, b.hi.z⟩,
   ⟨b.hi.x, b.lo.y, b.lo.z⟩, ⟨b.hi.x, b.lo.y, b.hi.z⟩,
   ⟨b.hi.x, b.hi.y, b.lo.z⟩, ⟨b.hi.x, b.hi.y, b.hi.z⟩]

/-- Membership test used by fit and projection_toggle. -/
def contains (b : AABB) (p : Vec3) : Bool :=
  decide (b.lo.x ≤ p.x ∧ p.x ≤ b.hi.x ∧ b.lo.y ≤ p.y ∧ p.y ≤ b.hi.y ∧
    b.lo.z ≤ p.z ∧ p.z ≤ b.hi.z)

/-- Squared radius of the bounding sphere (half diagonal squared). -/
def sphereRadius2 (b : AABB) : ℚ := Vec3.length2 (b.hi - b.center)

/-- Radius of the bounding sphere; exact rational value or
notRepresentable. -/
def sphereRadiusE (b : AABB) : Except PyErr ℚ :=
  match ratSqrt b.sphereRadius2 with
  | some r => .ok r
  | none => .error .notRepresentable

end AABB

/-- First element of the list attaining the maximal key: the head of a stable
descending sort, matching Python sorted with a negated key. -/
def maxByFirst (f : α → ℚ) : List α → Option α
  | [] => none
  | a :: l =>
    match maxByFirst f l with
    | none => some a
    | some b => if f b > f a then some b else some a

/-- Last element of the list attaining the minimal key: the last element of a
stable descending sort, matching Python sorted with a negated key. -/
def minByLast (f : α → ℚ) : List α → Option α
  | [] => none
  | a :: l =>
    match minByLast f l with
    | none => some a
    | some b => if f b ≤ f a then some b else some a

/-- First element of the list attaining the minimal key, matching the Python
min builtin with a key function. -/
def minByFirst (f : α → ℚ) : List α → Option α
  | [] => none
  | a :: l =>
    match minByFirst f l with
    | none => some a
    | some b => if f b < f a then some b else some a

/-- Coordinate selector mirroring CoordinateAxes.X and CoordinateAxes.Y. -/
inductive CoordAxis where
  | X
  | Y
deriving DecidableEq, Repr

def Vec3.coord (v : Vec3) : CoordAxis → ℚ
  | .X => v.x
  | .Y => v.y

/-- Embedding of the solve_deltas helper inside Camera.fit: returns
(delta_major, delta_minor, delta_distance) exactly as computed there. -/
def solve_deltas (major : CoordAxis) (v1 v2 v3 v4 : Vec3) (projection_factor : ℚ) :
    ℚ × ℚ × ℚ :=
  let delta_major :=
    (-projection_factor * v1.coord major - v1.z - projection_factor * v2.coord major + v2.z) /
      (2 * projection_factor)
  let delta_distance :=
    projection_factor * delta_major + projection_factor * v2.coord major - v2.z
  let minor : CoordAxis := match major with | .Y => .X | .X => .Y
  let delta_minor := (-v4.z * v3.coord minor - v3.z * v4.coord minor) / (v3.z + v4.z)
  (delta_major, delta_minor, delta_distance)

/-- Unit quaternion with basis columns right, up, forward (spatial3d
Quaternion.from_basis), via the main branch of the standard conversion;
inputs needing another branch or an irrational square root report
notRepresentable.  No theorem in this file depends on the value. -/
def Quat.from_basisE (r u f : Vec3) : Except PyErr Quat :=
  match ratSqrt (1 + r.x + u.y + f.z) with
  | none => .error .notRepresentable
  | some d =>
    if d = 0 then .error .notRepresentable
    else .ok ⟨d / 2, (u.z - f.y) / (2 * d), (f.x - r.z) / (2 * d), (r.y - u.x) / (2 * d)⟩

/-- Camera orbit mode. -/
inductive OrbitType where
  | free
  | constrained
deriving DecidableEq, Repr

/-- Camera: a projection and the camera to world rigid transform. -/
structure Camera where
  projection : Projection
  camera_to_world : Transform
deriving DecidableEq, Repr

namespace Camera

/-- Embedding of Camera construction.  With no projection argument the Python
source evaluates PerspectiveProjection(), which raises TypeError because
vertical_fov is a required keyword argument with no default (the test suite
expects an OrthoProjection default here instead). -/
def init (camera_to_world : Option Transform) (projection : Option Projection) :
    Except PyErr Camera :=
  match projection with
  | some p => .ok ⟨p, camera_to_world.getD Transform.identity⟩
  | none => .error .typeError

def position (c : Camera) : Vec3 := c.camera_to_world.t

def world_to_camera (c : Camera) : Transform := c.camera_to_world.inverse

/-- Embedding of Camera.look_at.  The forward normalization sits outside the
try block (a zero vector there is an uncaught ZeroDivisionError); the right
axis normalization is wrapped and a ZeroDivisionError there, raised exactly
when up is parallel to forward, is re-raised as CameraError.  On error the
camera is returned to the caller unchanged by Python exception semantics;
the embedding returns the error without a camera value. -/
def look_at (cam : Camera) (position target : Vec3) (up_direction : Option Vec3) :
    Except PyErr Camera :=
  let up := up_direction.getD Vec3.unitZ
  match (target - position).normalizeE with
  | .error e => .error e
  | .ok fwd0 =>
    let forward := -fwd0
    match (up.cross forward).normalizeE with
    | .error .zeroDivision => .error .cameraError
    | .error e => .error e
    | .ok right =>
      match (forward.cross right).normalizeE with
      | .error e => .error e
      | .ok upward =>
        match Quat.from_basisE right upward forward with
        | .error e => .error e
        | .ok q => .ok { cam with camera_to_world := ⟨q, position⟩ }

/-- Embedding of Camera.orbit.  The pitch and yaw guards compare the raw
angle against zero in Python; in the half angle representation this is the
test against (1, 0), and skipping versus applying an identity rotation is
observationally identical. -/
def orbit (cam : Camera) (target : Vec3) (pitch yaw : Angle) (orbit_type : OrbitType) :
    Camera :=
  let t1 := Transform.translate (-target) * cam.camera_to_world
  let t2 :=
    if pitch.isZero then t1
    else Transform.fromAxisAngle (t1.applyVector Vec3.unitX) pitch.c pitch.s * t1
  let t3 :=
    if yaw.isZero then t2
    else
      let yawAxis :=
        match orbit_type with
        | .free => t2.applyVector Vec3.unitY
        | .constrained => Vec3.unitZ
      Transform.fromAxisAngle yawAxis yaw.c yaw.s * t2
  { cam with camera_to_world := Transform.translate target * t3 }

/-- Embedding of Camera.dolly: translate along the camera z axis. -/
def dolly (cam : Camera) (z : ℚ) : Camera :=
  { cam with camera_to_world := cam.camera_to_world * Transform.translate ⟨0, 0, z⟩ }

/-- Embedding of Camera.track with a vector argument: only the x and y
components are used (the source rebuilds the vector from vector.xy). -/
def track (cam : Camera) (v : Vec3) : Camera :=
  { cam with camera_to_world := cam.camera_to_world * Transform.translate ⟨v.x, v.y, 0⟩ }

/-- Embedding of Camera.roll: rotate about the camera z axis. -/
def roll (cam : Camera) (a : Angle) : Camera :=
  { cam with camera_to_world :=
      cam.camera_to_world * Transform.fromAxisAngle Vec3.unitZ a.c a.s }

/-- Embedding of Camera.camera_space: partial unprojection using the diagonal
entries (elements 0 and 5, that is m11 and m22) of the projection inverse,
with z placed on the near clipping plane. -/
def camera_space (cam : Camera) (ndc : Vec3) : Vec3 :=
  let m11 := cam.projection.inverseMat.m11
  let m22 := cam.projection.inverseMat.m22
  ⟨m11 * ndc.x, m22 * ndc.y, -cam.projection.near_clip⟩

/-- Embedding of Camera.fit.  Faithful to the source: optional dolly out when
the camera is inside the box, tracking to the box center, NDC extreme corner
selection per axis (Python stable sorting is reproduced by first-of-maxima
and last-of-minima selection), then the branch on the limiting axis with
solve_deltas for perspective or direct width/height assignment for
orthographic, and the final compensating translation.  NDC evaluation with a
zero clip w would raise ZeroDivisionError in Python; the embedding checks all
corners up front. -/
def fit (cam0 : Camera) (world_aabb : AABB) (scale : ℚ) : Except PyErr Camera := do
  let cam ←
    if world_aabb.contains cam0.position then do
      let r ← world_aabb.sphereRadiusE
      pure { cam0 with camera_to_world :=
        cam0.camera_to_world * Transform.translate ⟨0, 0, r⟩ }
    else pure cam0
  let cam := cam.track (cam.world_to_camera.applyPoint world_aabb.center)
  let pts := world_aabb.corners.map cam.world_to_camera.applyPoint
  if pts.any (fun p => Projection.clipW cam.projection p = 0) then
    .error .zeroDivision
  else
    let ndcX := fun p => (Projection.project cam.projection p).x
    let ndcY := fun p => (Projection.project cam.projection p).y
    match maxByFirst ndcX pts, minByLast ndcX pts, maxByFirst ndcY pts, minByLast ndcY pts with
    | some x_max, some x_min, some y_max, some y_min =>
      let sizeX := ndcX x_max - ndcX x_min
      let sizeY := ndcY y_max - ndcY y_min
      let step : (ℚ × ℚ × ℚ) × Projection :=
        if sizeY > sizeX then
          match cam.projection with
          | .persp p =>
            let f := p.matrix.m22 / scale
            let (dy, dx, dz) := solve_deltas .Y y_max y_min x_max x_min f
            ((dx, dy, dz), .persp p)
          | .ortho p =>
            ((-(x_max.x + x_min.x) / 2, -(y_max.y + y_min.y) / 2, 0),
              .ortho (p.setHeight ((y_max.y - y_min.y) / scale)))
        else
          match cam.projection with
          | .persp p =>
            let f := p.matrix.m11 / scale
            let (dx, dy, dz) := solve_deltas .X x_max x_min y_max y_min f
            ((dx, dy, dz), .persp p)
          | .ortho p =>
            ((-(x_max.x + x_min.x) / 2, -(y_max.y + y_min.y) / 2, 0),
              .ortho { p with width := (x_max.x - x_min.x) / scale })
      let ((dx, dy, dz), proj) := step
      .ok { cam with
        projection := proj,
        camera_to_world := cam.camera_to_world * Transform.translate ⟨-dx, -dy, -dz⟩ }
    | _, _, _, _ => .error .assertionFailed

end Camera

/-- Camera settings namespace (settings.camera), held as rational constants.
The vertical_fov entry is consumed by the controller only through
tan(vertical_fov/2), stored here as tanHalfVfov. -/
structure CamSettings where
  orbit_speed : ℚ
  orbit_step : ℚ
  roll_speed : ℚ
  roll_step : ℚ
  scale_in : ℚ
  scale_speed : ℚ
  scale_step : ℚ
  track_step : ℚ
  tanHalfVfov : ℚ
deriving DecidableEq, Repr

/-- Orbit direction values from camera_controller_parameters.py. -/
inductive OrbitDirection where
  | down
  | left
  | right
  | up
deriving DecidableEq, Repr

def OrbitDirection.value : OrbitDirection → Vec3
  | .down => Vec3.unitY
  | .left => -Vec3.unitX
  | .right => Vec3.unitX
  | .up => -Vec3.unitY

/-- Roll direction values from camera_controller_parameters.py. -/
inductive RollDirection where
  | clockwise
  | counter_clockwise
deriving DecidableEq, Repr

def RollDirection.value : RollDirection → ℚ
  | .clockwise => -1
  | .counter_clockwise => 1

/-- Scale direction values from camera_controller_parameters.py. -/
inductive ScaleDirection where
  | inward
  | outward
deriving DecidableEq, Repr

def ScaleDirection.value : ScaleDirection → ℚ
  | .inward => -1
  | .outward => 1

/-- Track direction values from camera_controller_parameters.py. -/
inductive TrackDirection where
  | down
  | left
  | right
  | up
deriving DecidableEq, Repr

def TrackDirection.value : TrackDirection → Vec3
  | .down => -Vec3.unitY
  | .left => -Vec3.unitX
  | .right => Vec3.unitX
  | .up => Vec3.unitY

/-- Preset camera views with their view direction vectors. -/
inductive CameraView where
  | back
  | bottom
  | front
  | isometric
  | left
  | right
  | top
deriving DecidableEq, Repr

def CameraView.value : CameraView → Vec3
  | .back => -Vec3.unitY
  | .bottom => Vec3.unitZ
  | .front => Vec3.unitY
  | .isometric => ⟨-1, 1, -1⟩
  | .left => Vec3.unitX
  | .right => -Vec3.unitX
  | .top => -Vec3.unitZ

/-- Up vector of a preset view: Z unless the view direction is colinear with
Z (exact colinearity is what the isclose tests detect on these exact
constants): Y for the bottom view, negated Y for the top view. -/
def CameraView.up_vector : CameraView → Vec3
  | .bottom => Vec3.unitY
  | .top => -Vec3.unitY
  | _ => Vec3.unitZ

/-- Controller state: the viewed scene (modelled by its bounding box, the
only part the camera controller reads), the camera, the orbit target, the
orbit mode and the orientation lock. -/
structure CtrlState where
  scene : AABB
  camera : Camera
  target : Vec3
  orbit_type : OrbitType
  is_locked : Bool
deriving DecidableEq, Repr

/-- Replace only the orientation lock flag. -/
def CtrlState.setLock (st : CtrlState) (b : Bool) : CtrlState := { st with is_locked := b }

namespace CtrlState

/-- Embedding of CameraController._dolly_will_clip: true when dollying the
displacement would clip the scene.  The Python min builtin keyed on z picks
the first minimal element. -/
def dolly_will_clip (st : CtrlState) (displacement : ℚ) : Bool :=
  let pts := st.scene.corners.map st.camera.world_to_camera.applyPoint
  match minByFirst (fun p => p.z) pts with
  | some back_of_scene =>
    decide (displacement > 0 ∧
      displacement - back_of_scene.z > st.camera.projection.far_clip)
  | none => false

/-- Common tail of CameraController.scale once the amount is known: guard and
dolly for a perspective projection, zoom for an orthographic one; the Bool
reports whether the scale was applied. -/
def scaleAmount (st : CtrlState) (amount : ℚ) : Bool × CtrlState :=
  match st.camera.projection with
  | .persp _ =>
    if st.dolly_will_clip amount then (false, st)
    else (true, { st with camera := st.camera.dolly amount })
  | .ortho p =>
    (true, { st with camera := { st.camera with projection := .ortho (p.zoom amount) } })

/-- Embedding of CameraController._scale_to_cursor.  The inner call
scale(None, Vector3(0, delta_scale), None, None) always lands in the
cursor_delta branch of scale, which computes amount = scale_speed *
delta_scale and falls through to the common tail; the embedding performs that
unfolding.  Division by a zero cursor camera z or a zero orthographic width
is a Python ZeroDivisionError. -/
def scaleToCursor (settings : CamSettings) (st : CtrlState) (cursor_position : Vec3)
    (direction : ℚ) : Except PyErr CtrlState := do
  let ccp ← (st.camera.camera_space cursor_position).normalizeE
  let delta_scale := direction * settings.scale_step
  if ccp.z = 0 then .error .zeroDivision
  else
    let delta_camera0 := (delta_scale / ccp.z) • ccp
    let delta_camera ←
      match st.camera.projection with
      | .ortho p =>
        if p.width = 0 then .error .zeroDivision
        else pure ((1 / p.width) • delta_camera0)
      | .persp _ => pure delta_camera0
    let (was_scaled, st1) := st.scaleAmount (settings.scale_speed * delta_scale)
    if was_scaled ∧ delta_scale < 0 then
      .ok { st1 with camera := st1.camera.track ⟨delta_camera.x, delta_camera.y, 0⟩ }
    else .ok st1

/-- Embedding of CameraController.scale.  Exactly one input shape is
expected; the source asserts when all are None, raises a TypeError when the
scroll branch runs without a cursor position, and notably the scroll branch
returns False unconditionally after delegating to _scale_to_cursor. -/
def scale (settings : CamSettings) (st : CtrlState)
    (cursor_position cursor_delta scroll : Option Vec3)
    (direction : Option ScaleDirection) : Except PyErr (Bool × CtrlState) :=
  match direction with
  | some d => .ok (st.scaleAmount (d.value * settings.scale_step))
  | none =>
    match scroll with
    | some sc =>
      match cursor_position with
      | some cp =>
        (st.scaleToCursor settings cp (sc.y * settings.scale_in)).map (fun st2 => (false, st2))
      | none => .error .typeError
    | none =>
      match cursor_delta with
      | some cd => .ok (st.scaleAmount (settings.scale_speed * cd.y))
      | none => .error .assertionFailed

/-- Embedding of CameraController.orbit.  trig is the half angle oracle
mapping a raw angle (a rational standing for the float the Python code
computes) to the cosine and sine of its half, the only data Camera.orbit
consumes.  A locked orientation returns immediately. -/
def orbit (trig : ℚ → Angle) (settings : CamSettings) (st : CtrlState)
    (cursor_delta scroll : Option Vec3) (direction : Option OrbitDirection) :
    Except PyErr CtrlState :=
  if st.is_locked then .ok st
  else
    let angles :=
      match direction with
      | some d => some (settings.orbit_step • d.value)
      | none =>
        match scroll with
        | some sc => some (settings.orbit_step • sc)
        | none =>
          match cursor_delta with
          | some cd => some (settings.orbit_speed • (⟨-cd.x, cd.y, cd.z⟩ : Vec3))
          | none => none
    match angles with
    | some a =>
      .ok { st with camera := st.camera.orbit st.target (trig a.y) (trig a.x) st.orbit_type }
    | none => .error .assertionFailed

/-- Embedding of CameraController.roll.  The isclose(radius.length(), 0)
guard with default tolerances holds exactly when the radius is the zero
vector, decided here on the squared length.  A locked orientation returns
immediately. -/
def roll (trig : ℚ → Angle) (settings : CamSettings) (st : CtrlState)
    (cursor_position cursor_delta : Option Vec3) (direction : Option RollDirection) :
    Except PyErr CtrlState :=
  if st.is_locked then .ok st
  else
    match direction with
    | some d => .ok { st with camera := st.camera.roll (trig (d.value * settings.roll_step)) }
    | none =>
      match cursor_position, cursor_delta with
      | some cp, some cd =>
        let radius := cp - cd
        if radius.length2 = 0 then .ok st
        else do
          let tangent ← (Vec3.mk radius.y (-radius.x) 0).normalizeE
          .ok { st with camera := st.camera.roll (trig (settings.roll_speed * cd.dot tangent)) }
      | _, _ => .error .typeError

/-- Embedding of CameraController.track. -/
def track (settings : CamSettings) (st : CtrlState) (cursor_delta : Option Vec3)
    (direction : Option TrackDirection) : Except PyErr CtrlState :=
  match direction with
  | some d => .ok { st with camera := st.camera.track ((-settings.track_step) • d.value) }
  | none =>
    match cursor_delta with
    | some cd =>
      let delta0 := -(st.camera.camera_space cd)
      let delta :=
        match st.camera.projection with
        | .persp _ => (-(st.camera.world_to_camera.applyPoint st.target).z) • delta0
        | .ortho _ => delta0
      .ok { st with camera := st.camera.track delta }
    | none => .error .assertionFailed

/-- Embedding of CameraController.view: position the camera outside the
scene along the view direction, look at the scene center with the preset up
vector, then fit.  A locked orientation returns immediately. -/
def view (st : CtrlState) (v : CameraView) : Except PyErr CtrlState :=
  if st.is_locked then .ok st
  else do
    let dirN ← v.value.normalizeE
    let r ← st.scene.sphereRadiusE
    let camera_position := st.scene.center - r • dirN
    let cam1 ← st.camera.look_at camera_position st.scene.center (some v.up_vector)
    let cam2 ← cam1.fit st.scene 1
    .ok { st with camera := cam2 }

/-- Embedding of CameraController.projection_toggle: swap the projection
variant while matching the frustum width at the scene center; dolly outward
when switching to orthographic from inside the scene. -/
def projection_toggle (settings : CamSettings) (st : CtrlState) : Except PyErr CtrlState :=
  let aspect := st.camera.projection.aspect
  let nearc := st.camera.projection.near_clip
  let farc := st.camera.projection.far_clip
  let point := st.camera.world_to_camera.applyPoint st.scene.center
  let constant := -2 * aspect * settings.tanHalfVfov
  match st.camera.projection with
  | .persp _ =>
    let width := constant * point.z
    let cam1 := { st.camera with projection := .ortho ⟨aspect, nearc, farc, width⟩ }
    if st.scene.contains cam1.position then do
      let r ← st.scene.sphereRadiusE
      .ok { st with camera := cam1.dolly (2 * r) }
    else .ok { st with camera := cam1 }
  | .ortho p =>
    let delta := point.z - p.width / constant
    let cam1 := (st.camera.dolly delta)
    .ok { st with camera :=
      { cam1 with projection := .persp ⟨aspect, nearc, farc, settings.tanHalfVfov⟩ } }

end CtrlState

/-- The field assignments CameraController.__init__ performs once the camera
object exists: the orbit target is Vector3(), the world origin,
unconditionally; the orbit type starts CONSTRAINED and the lock off. -/
def CameraController.initFields (camera : Camera) (scene : AABB) : CtrlState :=
  ⟨scene, camera, Vec3.zero, OrbitType.constrained, false⟩

/-- Embedding of CameraController.__init__: stores the scene and then
evaluates Camera(), which raises TypeError (see Camera.init); the remaining
fields are assigned only if that succeeds. -/
def CameraController.init (scene : AABB) : Except PyErr CtrlState :=
  (Camera.init none none).map (fun cam => CameraController.initFields cam scene)

/-- Modelled from the claim wording of C5: translate the target to the
origin, apply the yaw rotation (about the camera up axis in FREE mode or the
world up axis in CONSTRAINED mode), then apply the pitch rotation about the
camera current right axis, then translate back, composed with the existing
pose; the axes are taken from the pose at call time. -/
def Camera.orbitSpecSeq (cam : Camera) (target : Vec3) (pitch yaw : Angle)
    (orbit_type : OrbitType) : Camera :=
  let upAxis :=
    match orbit_type with
    | .free => cam.camera_to_world.applyVector Vec3.unitY
    | .constrained => Vec3.unitZ
  let rightAxis := cam.camera_to_world.applyVector Vec3.unitX
  { cam with camera_to_world :=
      Transform.translate target *
        (Transform.fromAxisAngle rightAxis pitch.c pitch.s *
          (Transform.fromAxisAngle upAxis yaw.c yaw.s *
            (Transform.translate (-target) * cam.camera_to_world))) }

/-- Modelled from the claim wording of C4: the squared sine of half the
smaller of the horizontal and vertical fields of view.  The half tangent of
the horizontal field of view is aspect times the vertical half tangent, the
tangent is monotone on the half angle range, and sin^2 t = tan^2 t / (1 +
tan^2 t), so the quantity is rational in the stored data. -/
def PerspectiveProjection.sinSqHalfMinFov (p : PerspectiveProjection) : ℚ :=
  let m := min (p.aspect * p.tanHalfVfov) p.tanHalfVfov
  m ^ 2 / (1 + m ^ 2)

/-! Concrete sample inputs used by the witness and counterexample theorems.
Validity per the spec: aspect 1 > 0, near clip 1 > 0, far clip 3 > 1,
orthographic width 2 > 0, and tanHalfVfov 1 is a vertical field of view of a
right angle, inside (0, pi). -/

/-- Valid orthographic projection sample. -/
def sampleOrtho : OrthoProjection := ⟨1, 1, 3, 2⟩

/-- Valid perspective projection sample. -/
def samplePersp : PerspectiveProjection := ⟨1, 1, 3, 1⟩

/-- Perspective camera at the identity orientation, positioned at z = 10. -/
def sampleCameraPersp : Camera := ⟨.persp samplePersp, ⟨Quat.one, ⟨0, 0, 10⟩⟩⟩

/-- Orthographic camera at the identity orientation, positioned at z = 10. -/
def sampleCameraOrtho : Camera := ⟨.ortho sampleOrtho, ⟨Quat.one, ⟨0, 0, 10⟩⟩⟩

/-- Bounding box with distinct side lengths 1, 5, 2 centered at
(3/2, 7/2, -1), fully below the sample camera. -/
def sampleBox : AABB := ⟨⟨1, 1, -2⟩, ⟨2, 6, 0⟩⟩

/-- Controller settings sample: scale_in 1, scale_speed 5, scale_step 100,
all remaining constants 1. -/
def sampleSettings : CamSettings := ⟨1, 1, 1, 1, 1, 5, 100, 1, 1⟩

/-- Controller state sample around the orthographic camera. -/
def sampleStateOrtho : CtrlState :=
  ⟨sampleBox, sampleCameraOrtho, Vec3.zero, .constrained, false⟩

/-- Orthographic camera at the identity orientation, positioned at z = 1. -/
def sampleCameraAtZ1 : Camera := ⟨.ortho sampleOrtho, ⟨Quat.one, ⟨0, 0, 1⟩⟩⟩

/-- The angle whose half angle has cosine 3/5 and sine 4/5. -/
def sampleAngle : Angle := ⟨3 / 5, 4 / 5⟩

/-! Algebraic facts about the embedded quaternion rotations. -/

@[simp] theorem Vec3.add_def (a b : Vec3) : a + b = ⟨a.x + b.x, a.y + b.y, a.z + b.z⟩ := rfl

@[simp] theorem Vec3.sub_def (a b : Vec3) : a - b = ⟨a.x - b.x, a.y - b.y, a.z - b.z⟩ := rfl

@[simp] theorem Vec3.neg_def (a : Vec3) : -a = ⟨-a.x, -a.y, -a.z⟩ := rfl

@[simp] theorem Vec3.smul_def (c : ℚ) (a : Vec3) : c • a = ⟨c * a.x, c * a.y, c * a.z⟩ := rfl

@[simp] theorem Vec3.add_zero_v (v : Vec3) : v + Vec3.zero = v := by
  cases v; simp [Vec3.zero]

@[simp] theorem Quat.one_mul_q (q : Quat) : Quat.one.mul q = q := by
  cases q; simp only [Quat.one, Quat.mul, Quat.mk.injEq]; refine ⟨by ring, by ring, by ring, by ring⟩

@[simp] theorem Quat.rotate_one (v : Vec3) : Quat.one.rotate v = v := by
  cases v
  simp only [Quat.rotate, Quat.one, Quat.mul, Quat.conj, Quat.pure, Quat.vec, Vec3.mk.injEq]
  refine ⟨by ring, by ring, by ring⟩

/-- Rotation by a quaternion product is the composition of the rotations. -/
theorem Quat.rotate_mul (p q : Quat) (v : Vec3) :
    (p.mul q).rotate v = p.rotate (q.rotate v) := by
  cases p; cases q; cases v
  simp only [Quat.rotate, Quat.mul, Quat.conj, Quat.pure, Quat.vec, Vec3.mk.injEq]
  refine ⟨by ring, by ring, by ring⟩

/-- The squared quaternion norm is multiplicative. -/
theorem Quat.norm2_mul (p q : Quat) : (p.mul q).norm2 = p.norm2 * q.norm2 := by
  cases p; cases q; simp only [Quat.norm2, Quat.mul]; ring

/-- Conjugating a vector by a quaternion scales its squared length by the
squared norm of the quaternion, squared. -/
theorem Quat.rotate_length2 (q : Quat) (v : Vec3) :
    (q.rotate v).length2 = q.norm2 ^ 2 * v.length2 := by
  cases q; cases v
  simp only [Quat.rotate, Quat.mul, Quat.conj, Quat.pure, Quat.vec, Vec3.length2, Quat.norm2]
  ring

/-- Rotation by a unit quaternion preserves squared lengths. -/
theorem Quat.rotate_length2_of_unit (q : Quat) (v : Vec3) (h : q.norm2 = 1) :
    (q.rotate v).length2 = v.length2 := by
  rw [Quat.rotate_length2, h]; ring

/-- Squared norm of an axis angle quaternion. -/
theorem Quat.norm2_ofAxisHalf (axis : Vec3) (c s : ℚ) :
    (Quat.ofAxisHalf axis c s).norm2 = c ^ 2 + s ^ 2 * axis.length2 := by
  cases axis; simp only [Quat.ofAxisHalf, Quat.norm2, Vec3.length2]; ring

@[simp] theorem Transform.mul_q (a b : Transform) : (a * b).q = a.q.mul b.q := rfl

@[simp] theorem Transform.mul_t (a b : Transform) : (a * b).t = a.q.rotate b.t + a.t := rfl

@[simp] theorem Transform.translate_q (v : Vec3) : (Transform.translate v).q = Quat.one := rfl

@[simp] theorem Transform.translate_t (v : Vec3) : (Transform.translate v).t = v := rfl

@[simp] theorem Transform.fromAxisAngle_q (axis : Vec3) (c s : ℚ) :
    (Transform.fromAxisAngle axis c s).q = Quat.ofAxisHalf axis c s := rfl

@[simp] theorem Transform.fromAxisAngle_t (axis : Vec3) (c s : ℚ) :
    (Transform.fromAxisAngle axis c s).t = Vec3.zero := rfl

@[simp] theorem Transform.applyVector_eq (T : Transform) (v : Vec3) :
    T.applyVector v = T.q.rotate v := rfl

theorem Vec3.dist2_add_cancel (x t : Vec3) : Vec3.dist2 (x + t) t = x.length2 := by
  cases x; cases t
  simp only [Vec3.dist2, Vec3.length2, Vec3.sub, Vec3.add_def]
  ring

theorem Vec3.dist2_eq_length2 (a b : Vec3) : Vec3.dist2 a b = (a + -b).length2 := by
  cases a; cases b
  simp only [Vec3.dist2, Vec3.length2, Vec3.sub, Vec3.add_def, Vec3.neg_def]
  ring

@[simp] theorem Vec3.length2_unitX : Vec3.unitX.length2 = 1 := by
  norm_num [Vec3.length2, Vec3.unitX]

@[simp] theorem Vec3.length2_unitY : Vec3.unitY.length2 = 1 := by
  norm_num [Vec3.length2, Vec3.unitY]

@[simp] theorem Vec3.length2_unitZ : Vec3.unitZ.length2 = 1 := by
  norm_num [Vec3.length2, Vec3.unitZ]

theorem sqrtUpTo_square (n : Nat) : ∀ b : Nat, n ≤ b → sqrtUpTo (n * n) b = some n := by
  intro b
  induction b with
  | zero =>
    intro h
    interval_cases n
    simp [sqrtUpTo]
  | succ k ih =>
    intro h
    by_cases hn : n = k + 1
    · subst hn
      simp [sqrtUpTo]
    · have h2 : n ≤ k := Nat.lt_succ_iff.mp (lt_of_le_of_ne h hn)
      have hne : ¬((k + 1) * (k + 1) = n * n) := by
        intro he
        exact hn (Nat.mul_self_inj.mp he).symm
      simp only [sqrtUpTo, if_neg hne]
      exact ih h2

theorem natLeMulSelf (m : Nat) : m ≤ m * m := by
  cases m with
  | zero => exact Nat.le_refl 0
  | succ k => exact Nat.le_mul_of_pos_left _ (Nat.succ_pos k)

theorem ratSqrt_of_sq (r : ℚ) (hr : 0 ≤ r) : ratSqrt (r * r) = some r := by
  unfold ratSqrt
  rw [if_neg (not_lt.mpr (mul_self_nonneg r))]
  rw [Rat.mul_self_num, Rat.mul_self_den]
  rw [Int.natAbs_mul]
  rw [sqrtUpTo_square _ _ (natLeMulSelf _), sqrtUpTo_square _ _ (natLeMulSelf _)]
  have h1 : (r.num.natAbs : ℤ) = r.num := Int.natAbs_of_nonneg (Rat.num_nonneg.mpr hr)
  have h2 : ((r.num.natAbs : ℚ)) = ((r.num : ℤ) : ℚ) := by
    conv_rhs => rw [← h1]
    exact (Int.cast_natCast _).symm
  simp only [h2]
  rw [Rat.num_div_den r]

theorem Vec3.normalizeE_of_sq (v : Vec3) (r : ℚ) (h : v.length2 = r * r) (hr : 0 < r) :
    v.normalizeE = .ok ((1 / r) • v) := by
  unfold Vec3.normalizeE
  rw [h, ratSqrt_of_sq r hr.le]
  simp [hr.ne']

theorem Vec3.normalizeE_zero_len (v : Vec3) (h : v.length2 = 0) :
    v.normalizeE = .error .zeroDivision := by
  unfold Vec3.normalizeE
  rw [h, show (0 : ℚ) = 0 * 0 by norm_num, ratSqrt_of_sq 0 le_rfl]
  simp

/-- C1: for every valid projection the product matrix() * inverse() should be
the identity matrix.  At the valid sample parameters (aspect 1, near clip 1,
far clip 3, width 2, vertical field of view a right angle) the product
differs from the identity for both variants and in both multiplication
orders, so the inverse methods do not return the inverse of matrix(). -/
theorem c1_matrix_inverse_fails :
    sampleOrtho.matrix.mul sampleOrtho.inverseMat ≠ Mat4.idMat ∧
    sampleOrtho.inverseMat.mul sampleOrtho.matrix ≠ Mat4.idMat ∧
    samplePersp.matrix.mul samplePersp.inverseMat ≠ Mat4.idMat ∧
    samplePersp.inverseMat.mul samplePersp.matrix ≠ Mat4.idMat := by
  refine ⟨?_, ?_, ?_, ?_⟩ <;>
    norm_num [sampleOrtho, samplePersp, OrthoProjection.matrix, OrthoProjection.inverseMat,
      PerspectiveProjection.matrix, PerspectiveProjection.inverseMat,
      PerspectiveProjection.scaleFactor, Mat4.mul, Mat4.idMat, Mat4.ofColMajor,
      OrthoProjection.depth, OrthoProjection.height, PerspectiveProjection.depth, Mat4.mk.injEq]

/-- C8: zooming an orthographic projection never drives the width below the
positive minimum WIDTH_MIN, for every starting projection and every amount,
including arbitrarily large negative amounts. -/
theorem c8_zoom_width_min (p : OrthoProjection) (amount : ℚ) :
    OrthoProjection.WIDTH_MIN ≤ (p.zoom amount).width ∧ 0 < OrthoProjection.WIDTH_MIN := by
  refine ⟨?_, by norm_num [OrthoProjection.WIDTH_MIN]⟩
  show OrthoProjection.WIDTH_MIN ≤ max (p.width + amount) OrthoProjection.WIDTH_MIN
  exact le_max_right _ _

/-- C3 counterexample: constructing projections with non-positive parameters
raises no error; negative values are stored unchanged and a zero aspect or
near clip is silently replaced by the default, contradicting the claim that
construction fails with a configuration error and never silently replaces a
value. -/
theorem c3_counterexample :
    OrthoProjection.init (some (-1)) (some (-2)) (some (-3)) (-4) =
      { aspect := -1, near_clip := -2, far_clip := -3, width := -4 } ∧
    (OrthoProjection.init (some 0) none none 1).aspect = 1 ∧
    PerspectiveProjection.init (some (-5)) (some 0) (some (-6)) 1 =
      { aspect := -5, near_clip := 1 / 10, far_clip := -6, tanHalfVfov := 1 } := by
  refine ⟨?_, ?_, ?_⟩ <;>
    norm_num [OrthoProjection.init, PerspectiveProjection.init, pyOr,
      OrthoProjection.mk.injEq, PerspectiveProjection.mk.injEq]

/-- C3 amended: construction performs no validation and never raises.
Negative aspect, near clip, far clip, width and field of view values are
stored unchanged, while a zero (or omitted) aspect, near clip or far clip is
silently replaced by the defaults 1, 1/10 and 10000. -/
theorem c3_amended (a n f w t : ℚ) (ha : a < 0) (hn : n < 0) (hf : f < 0) :
    OrthoProjection.init (some a) (some n) (some f) w =
      { aspect := a, near_clip := n, far_clip := f, width := w } ∧
    PerspectiveProjection.init (some a) (some n) (some f) t =
      { aspect := a, near_clip := n, far_clip := f, tanHalfVfov := t } ∧
    OrthoProjection.init (some 0) (some 0) (some 0) w =
      { aspect := 1, near_clip := 1 / 10, far_clip := 10000, width := w } := by
  refine ⟨?_, ?_, ?_⟩ <;>
    simp [OrthoProjection.init, PerspectiveProjection.init, pyOr, ha.ne, hn.ne, hf.ne,
      OrthoProjection.mk.injEq, PerspectiveProjection.mk.injEq]

/-- Witness for c3_amended at a = n = f = -1, w = -2, t = -3. -/
theorem c3_amended_witness :
    (-1 : ℚ) < 0 ∧
    OrthoProjection.init (some (-1)) (some (-1)) (some (-1)) (-2) =
      { aspect := -1, near_clip := -1, far_clip := -1, width := -2 } := by
  refine ⟨by norm_num, ?_⟩
  exact (c3_amended (-1) (-1) (-1) (-2) (-3) (by norm_num) (by norm_num) (by norm_num)).1

/-- C9: Camera.look_at fails with CameraError whenever the effective up
direction is parallel to the computed forward direction (their cross product
is the zero vector), and by exception semantics the camera pose is left
unchanged: the pose assignment at the end of look_at is never reached, and
the embedding returns the error without a camera value.  The hypothesis
names the normalized forward offset so that the degeneracy condition can be
stated on the exact vectors look_at computes. -/
theorem c9_look_at_degenerate_up (cam : Camera) (position target : Vec3) (up : Option Vec3)
    (f : Vec3) (hf : (target - position).normalizeE = .ok f)
    (hc : (up.getD Vec3.unitZ).cross (-f) = Vec3.zero) :
    cam.look_at position target up = .error .cameraError := by
  unfold Camera.look_at
  rw [hf]
  dsimp only
  rw [hc, Vec3.normalizeE_zero_len Vec3.zero (by norm_num [Vec3.length2, Vec3.zero])]

/-- Witness for c9_look_at_degenerate_up: camera at the origin looking at
(0, 0, -4) with the default up direction (world Z); forward is (0, 0, 1),
parallel to up, and look_at raises CameraError. -/
theorem c9_witness :
    (Vec3.mk 0 0 (-4) - Vec3.zero).normalizeE = .ok (Vec3.mk 0 0 (-1)) ∧
    (Option.getD none Vec3.unitZ).cross (-(Vec3.mk 0 0 (-1))) = Vec3.zero ∧
    sampleCameraOrtho.look_at Vec3.zero (Vec3.mk 0 0 (-4)) none = .error .cameraError := by
  have hf : (Vec3.mk 0 0 (-4) - Vec3.zero).normalizeE = .ok (Vec3.mk 0 0 (-1)) := by
    rw [show Vec3.mk 0 0 (-4) - Vec3.zero = Vec3.mk 0 0 (-4) by
      norm_num [Vec3.zero, Vec3.mk.injEq]]
    rw [Vec3.normalizeE_of_sq _ 4 (by norm_num [Vec3.length2]) (by norm_num)]
    norm_num [Vec3.mk.injEq]
  have hc : (Option.getD none Vec3.unitZ).cross (-(Vec3.mk 0 0 (-1))) = Vec3.zero := by
    norm_num [Vec3.cross, Vec3.unitZ, Vec3.zero, Vec3.mk.injEq]
  exact ⟨hf, hc, c9_look_at_degenerate_up sampleCameraOrtho Vec3.zero (Vec3.mk 0 0 (-4)) none
    (Vec3.mk 0 0 (-1)) hf hc⟩

theorem unit_ofAxisHalf (axis : Vec3) (c s : ℚ) (hcs : c ^ 2 + s ^ 2 = 1)
    (hax : axis.length2 = 1) : (Quat.ofAxisHalf axis c s).norm2 = 1 := by
  rw [Quat.norm2_ofAxisHalf, hax]
  linarith

theorem rotate_unit_axis (q : Quat) (v : Vec3) (hq : q.norm2 = 1) (hv : v.length2 = 1) :
    (q.rotate v).length2 = 1 := by
  rw [Quat.rotate_length2_of_unit _ _ hq, hv]

/-- C6: for all orbit angles, every orbit mode and any target, the distance
from the camera position to the target is unchanged by Camera.orbit.  The
hypotheses state that the camera orientation is a unit quaternion and that
each angle lies on the unit circle (cos and sin of the half angles), which
hold for every angle the Python code can pass. -/
theorem c6_orbit_preserves_target_distance (cam : Camera) (target : Vec3)
    (pitch yaw : Angle) (mode : OrbitType) (hq : cam.camera_to_world.q.norm2 = 1)
    (hp : pitch.c ^ 2 + pitch.s ^ 2 = 1) (hy : yaw.c ^ 2 + yaw.s ^ 2 = 1) :
    Vec3.dist2 (cam.orbit target pitch yaw mode).position target =
      Vec3.dist2 cam.position target := by
  rcases cam with ⟨proj, ⟨q0, t0⟩⟩
  have hq0 : q0.norm2 = 1 := hq
  have hpX : (q0.rotate Vec3.unitX).length2 = 1 :=
    rotate_unit_axis _ _ hq0 Vec3.length2_unitX
  have hqp : (Quat.ofAxisHalf (q0.rotate Vec3.unitX) pitch.c pitch.s).norm2 = 1 :=
    unit_ofAxisHalf _ _ _ hp hpX
  unfold Camera.orbit
  by_cases hp0 : pitch.isZero
  · by_cases hy0 : yaw.isZero
    · simp only [hp0, hy0, if_true, Camera.position, Transform.mul_t, Transform.mul_q,
        Transform.translate_q, Transform.translate_t, Quat.one_mul_q, Quat.rotate_one]
      rw [Vec3.dist2_add_cancel, Vec3.dist2_eq_length2]
    · cases mode
      · simp only [hp0, hy0, if_true, if_false, Camera.position, Transform.mul_t,
          Transform.mul_q, Transform.translate_q, Transform.translate_t,
          Transform.fromAxisAngle_q, Transform.fromAxisAngle_t, Transform.applyVector_eq,
          Quat.one_mul_q, Quat.rotate_one, Vec3.add_zero_v]
        rw [Vec3.dist2_add_cancel, Vec3.dist2_eq_length2]
        rw [Quat.rotate_length2_of_unit _ _
          (unit_ofAxisHalf _ _ _ hy (rotate_unit_axis _ _ hq0 Vec3.length2_unitY))]
      · simp only [hp0, hy0, if_true, if_false, Camera.position, Transform.mul_t,
          Transform.mul_q, Transform.translate_q, Transform.translate_t,
          Transform.fromAxisAngle_q, Transform.fromAxisAngle_t, Transform.applyVector_eq,
          Quat.one_mul_q, Quat.rotate_one, Vec3.add_zero_v]
        rw [Vec3.dist2_add_cancel, Vec3.dist2_eq_length2]
        rw [Quat.rotate_length2_of_unit _ _
          (unit_ofAxisHalf _ _ _ hy Vec3.length2_unitZ)]
  · by_cases hy0 : yaw.isZero
    · simp only [hp0, hy0, if_true, if_false, Camera.position, Transform.mul_t,
        Transform.mul_q, Transform.translate_q, Transform.translate_t,
        Transform.fromAxisAngle_q, Transform.fromAxisAngle_t, Transform.applyVector_eq,
        Quat.one_mul_q, Quat.rotate_one, Vec3.add_zero_v]
      rw [Vec3.dist2_add_cancel, Vec3.dist2_eq_length2]
      rw [Quat.rotate_length2_of_unit _ _ hqp]
    · have hq2 : ((Quat.ofAxisHalf (q0.rotate Vec3.unitX) pitch.c pitch.s).mul q0).norm2 = 1 := by
        rw [Quat.norm2_mul, hqp, hq0]
        ring
      cases mode
      · simp only [hp0, hy0, if_false, Camera.position, Transform.mul_t,
          Transform.mul_q, Transform.translate_q, Transform.translate_t,
          Transform.fromAxisAngle_q, Transform.fromAxisAngle_t, Transform.applyVector_eq,
          Quat.one_mul_q, Quat.rotate_one, Vec3.add_zero_v]
        rw [Vec3.dist2_add_cancel, Vec3.dist2_eq_length2]
        rw [Quat.rotate_length2_of_unit _ _
          (unit_ofAxisHalf _ _ _ hy (rotate_unit_axis _ _ hq2 Vec3.length2_unitY))]
        rw [Quat.rotate_length2_of_unit _ _ hqp]
      · simp only [hp0, hy0, if_false, Camera.position, Transform.mul_t,
          Transform.mul_q, Transform.translate_q, Transform.translate_t,
          Transform.fromAxisAngle_q, Transform.fromAxisAngle_t, Transform.applyVector_eq,
          Quat.one_mul_q, Quat.rotate_one, Vec3.add_zero_v]
        rw [Vec3.dist2_add_cancel, Vec3.dist2_eq_length2]
        rw [Quat.rotate_length2_of_unit _ _ (unit_ofAxisHalf _ _ _ hy Vec3.length2_unitZ)]
        rw [Quat.rotate_length2_of_unit _ _ hqp]

/-- Witness for c6_orbit_preserves_target_distance: the orthographic sample
camera orbited about (4, 5, 6) by the sample angle in both pitch and yaw,
constrained mode. -/
theorem c6_witness :
    sampleCameraOrtho.camera_to_world.q.norm2 = 1 ∧
    sampleAngle.c ^ 2 + sampleAngle.s ^ 2 = 1 ∧
    Vec3.dist2
        ((sampleCameraOrtho.orbit (Vec3.mk 4 5 6) sampleAngle sampleAngle
          OrbitType.constrained).position) (Vec3.mk 4 5 6) =
      Vec3.dist2 sampleCameraOrtho.position (Vec3.mk 4 5 6) := by
  have h1 : sampleCameraOrtho.camera_to_world.q.norm2 = 1 := by
    norm_num [sampleCameraOrtho, Quat.norm2, Quat.one]
  have h2 : sampleAngle.c ^ 2 + sampleAngle.s ^ 2 = 1 := by
    norm_num [sampleAngle]
  exact ⟨h1, h2, c6_orbit_preserves_target_distance sampleCameraOrtho (Vec3.mk 4 5 6)
    sampleAngle sampleAngle OrbitType.constrained h1 h2 h2⟩

theorem Quat.mul_assoc_q (a b c : Quat) : (a.mul b).mul c = a.mul (b.mul c) := by
  cases a; cases b; cases c
  simp only [Quat.mul, Quat.mk.injEq]
  refine ⟨by ring, by ring, by ring, by ring⟩

theorem Transform.ext_qt (a b : Transform) (h1 : a.q = b.q) (h2 : a.t = b.t) : a = b := by
  cases a; cases b; cases h1; cases h2; rfl

/-- Transporting the rotation axis through a unit quaternion commutes the
axis angle quaternion across that quaternion. -/
theorem yaw_axis_conj (qp : Quat) (u : Vec3) (c s : ℚ) (h : qp.norm2 = 1) :
    Quat.mul (Quat.ofAxisHalf (qp.rotate u) c s) qp = Quat.mul qp (Quat.ofAxisHalf u c s) := by
  rcases qp with ⟨w, x, y, z⟩
  rcases u with ⟨a, b, d⟩
  simp only [Quat.norm2] at h
  simp only [Quat.rotate, Quat.mul, Quat.ofAxisHalf, Quat.conj, Quat.pure, Quat.vec,
    Quat.mk.injEq]
  refine ⟨?_, ?_, ?_, ?_⟩
  · linear_combination (s * (-(x * a) - y * b - z * d)) * h
  · linear_combination (s * (w * a + y * d - z * b)) * h
  · linear_combination (s * (w * b - x * d + z * a)) * h
  · linear_combination (s * (w * d + x * b - y * a)) * h

/-- C5 counterexample: with the camera at the identity orientation at
(0, 0, 1), target at the origin, equal pitch and yaw angles (half angle
cosine 3/5) and CONSTRAINED mode, the position produced by the source orbit
differs from the position produced by the claimed sequence (yaw before
pitch about the call time axes): the source yields x = 576/625 while the
claimed sequence yields x = 0. -/
theorem c5_counterexample :
    (sampleCameraAtZ1.orbit Vec3.zero sampleAngle sampleAngle OrbitType.constrained).position ≠
      (sampleCameraAtZ1.orbitSpecSeq Vec3.zero sampleAngle sampleAngle
        OrbitType.constrained).position := by
  norm_num [sampleCameraAtZ1, sampleAngle, sampleOrtho, Camera.orbit, Camera.orbitSpecSeq,
    Camera.position, Angle.isZero, Transform.mul_q, Transform.mul_t, Transform.translate_q,
    Transform.translate_t, Transform.fromAxisAngle_q, Transform.fromAxisAngle_t,
    Transform.applyVector_eq, Quat.rotate, Quat.mul, Quat.conj, Quat.pure, Quat.vec,
    Quat.ofAxisHalf, Quat.one, Vec3.zero, Vec3.unitX, Vec3.unitY, Vec3.unitZ,
    Vec3.mk.injEq]

/-- C5 amended: the source composes pitch first and then yaw.  In
CONSTRAINED mode the resulting pose is translate back, yaw about world Z,
pitch about the call time camera right axis, translate to origin, composed
with the prior pose (yaw applied after pitch, contrary to the claim); in
FREE mode the source result coincides extensionally with the claimed
sequence (yaw before pitch about the call time camera axes), because the
pitched up axis conjugates the yaw across the pitch rotation. -/
theorem c5_amended (cam : Camera) (target : Vec3) (pitch yaw : Angle)
    (hq : cam.camera_to_world.q.norm2 = 1) (hp : pitch.c ^ 2 + pitch.s ^ 2 = 1)
    (hnp : ¬pitch.isZero) (hny : ¬yaw.isZero) :
    cam.orbit target pitch yaw OrbitType.constrained =
      { cam with camera_to_world :=
          Transform.translate target *
            (Transform.fromAxisAngle Vec3.unitZ yaw.c yaw.s *
              (Transform.fromAxisAngle (cam.camera_to_world.applyVector Vec3.unitX)
                  pitch.c pitch.s *
                (Transform.translate (-target) * cam.camera_to_world))) } ∧
    cam.orbit target pitch yaw OrbitType.free =
      cam.orbitSpecSeq target pitch yaw OrbitType.free := by
  obtain ⟨proj, ⟨q0, t0⟩⟩ := cam
  have hq0 : q0.norm2 = 1 := hq
  have hqp : (Quat.ofAxisHalf (q0.rotate Vec3.unitX) pitch.c pitch.s).norm2 = 1 :=
    unit_ofAxisHalf _ _ _ hp (rotate_unit_axis _ _ hq0 Vec3.length2_unitX)
  constructor
  · unfold Camera.orbit
    simp only [hnp, hny, if_false, Transform.mul_q, Transform.mul_t, Transform.translate_q,
      Transform.translate_t, Transform.fromAxisAngle_q, Transform.fromAxisAngle_t,
      Transform.applyVector_eq, Quat.one_mul_q, Quat.rotate_one, Vec3.add_zero_v]
  · unfold Camera.orbit Camera.orbitSpecSeq
    simp only [hnp, hny, if_false, Transform.mul_q, Transform.mul_t, Transform.translate_q,
      Transform.translate_t, Transform.fromAxisAngle_q, Transform.fromAxisAngle_t,
      Transform.applyVector_eq, Quat.one_mul_q, Quat.rotate_one, Vec3.add_zero_v,
      Quat.rotate_mul]
    have hswap :
        Quat.mul
            (Quat.ofAxisHalf
              ((Quat.ofAxisHalf (q0.rotate Vec3.unitX) pitch.c pitch.s).rotate
                (q0.rotate Vec3.unitY)) yaw.c yaw.s)
            (Quat.ofAxisHalf (q0.rotate Vec3.unitX) pitch.c pitch.s) =
          Quat.mul (Quat.ofAxisHalf (q0.rotate Vec3.unitX) pitch.c pitch.s)
            (Quat.ofAxisHalf (q0.rotate Vec3.unitY) yaw.c yaw.s) :=
      yaw_axis_conj _ _ _ _ hqp
    congr 1
    apply Transform.ext_qt
    · simp only [Transform.mul_q, Transform.translate_q, Transform.fromAxisAngle_q,
        Quat.one_mul_q]
      rw [← Quat.mul_assoc_q, hswap, Quat.mul_assoc_q]
    · simp only [Transform.mul_q, Transform.mul_t, Transform.translate_q,
        Transform.translate_t, Transform.fromAxisAngle_q, Transform.fromAxisAngle_t,
        Quat.one_mul_q, Quat.rotate_one, Vec3.add_zero_v, Quat.rotate_mul]
      rw [← Quat.rotate_mul
          (Quat.ofAxisHalf
            ((Quat.ofAxisHalf (q0.rotate Vec3.unitX) pitch.c pitch.s).rotate
              (q0.rotate Vec3.unitY)) yaw.c yaw.s)
          (Quat.ofAxisHalf (q0.rotate Vec3.unitX) pitch.c pitch.s) (t0 + -target),
        ← Quat.rotate_mul (Quat.ofAxisHalf (q0.rotate Vec3.unitX) pitch.c pitch.s)
          (Quat.ofAxisHalf (q0.rotate Vec3.unitY) yaw.c yaw.s) (t0 + -target),
        hswap]

/-- Witness for c5_amended: the sample camera at z = 1 with the sample angle
for both pitch and yaw in FREE mode. -/
theorem c5_amended_witness :
    ¬sampleAngle.isZero ∧
    sampleCameraAtZ1.orbit Vec3.zero sampleAngle sampleAngle OrbitType.free =
      sampleCameraAtZ1.orbitSpecSeq Vec3.zero sampleAngle sampleAngle OrbitType.free := by
  have hz : ¬sampleAngle.isZero := by norm_num [Angle.isZero, sampleAngle]
  exact ⟨hz, (c5_amended sampleCameraAtZ1 Vec3.zero sampleAngle sampleAngle
    (by norm_num [sampleCameraAtZ1, Quat.norm2, Quat.one])
    (by norm_num [sampleAngle]) hz hz).2⟩

/-- C2 counterexample: scale with the scroll input shape on an orthographic
camera applies a zoom through _scale_to_cursor (the width changes from 2 to
502) and still returns False, so scale does not return True exactly when a
scale was applied. -/
theorem c2_counterexample :
    (CtrlState.scale sampleSettings sampleStateOrtho (some Vec3.zero) none
          (some (Vec3.mk 0 1 0)) none).map (fun r => (r.1, r.2.camera.projection)) =
      .ok (false, .ortho { aspect := 1, near_clip := 1, far_clip := 3, width := 502 }) ∧
    sampleStateOrtho.camera.projection =
      .ortho { aspect := 1, near_clip := 1, far_clip := 3, width := 2 } ∧
    (502 : ℚ) ≠ 2 := by
  have hcs : sampleCameraOrtho.camera_space (Vec3.mk 0 0 0) = Vec3.mk 0 0 (-1) := by
    norm_num [Camera.camera_space, sampleCameraOrtho, sampleOrtho, Projection.inverseMat,
      Projection.near_clip, OrthoProjection.inverseMat, OrthoProjection.height,
      OrthoProjection.depth, Mat4.ofColMajor, Vec3.mk.injEq]
  have hn : (Vec3.mk 0 0 (-1)).normalizeE = .ok (Vec3.mk 0 0 (-1)) := by
    rw [Vec3.normalizeE_of_sq _ 1 (by norm_num [Vec3.length2]) one_pos]
    norm_num [Vec3.mk.injEq]
  refine ⟨?_, by norm_num [sampleStateOrtho, sampleCameraOrtho, sampleOrtho], by norm_num⟩
  show (CtrlState.scale sampleSettings sampleStateOrtho (some Vec3.zero) none
          (some (Vec3.mk 0 1 0)) none).map (fun r => (r.1, r.2.camera.projection)) = _
  simp only [CtrlState.scale, CtrlState.scaleToCursor]
  rw [show sampleStateOrtho.camera.camera_space Vec3.zero = Vec3.mk 0 0 (-1) from hcs, hn]
  norm_num [CtrlState.scaleAmount, sampleStateOrtho, sampleCameraOrtho, sampleOrtho,
    sampleSettings, OrthoProjection.zoom, OrthoProjection.WIDTH_MIN, Camera.track,
    Except.map, Bind.bind, Except.bind, Pure.pure, Except.pure, Prod.ext_iff]

/-- C2 amended: for the named direction and cursor delta input shapes, scale
returns True exactly when it applied a scale: the result is False only for a
perspective projection refused by the clip guard, in which case the whole
controller state (in particular the camera position) is unchanged; the
scroll shape instead delegates to _scale_to_cursor and returns False even
when a scale was applied. -/
theorem c2_amended (settings : CamSettings) (st : CtrlState) (cp : Option Vec3)
    (d : ScaleDirection) (cdv : Vec3) :
    st.scale settings cp none none (some d) =
      .ok (st.scaleAmount (d.value * settings.scale_step)) ∧
    st.scale settings cp (some cdv) none none =
      .ok (st.scaleAmount (settings.scale_speed * cdv.y)) ∧
    (∀ amount, ((st.scaleAmount amount).1 = false ↔
        st.camera.projection.isPersp = true ∧ st.dolly_will_clip amount = true) ∧
      ((st.scaleAmount amount).1 = false → (st.scaleAmount amount).2 = st)) ∧
    (∀ cpv scv res,
      st.scale settings (some cpv) none (some scv) none = .ok res → res.1 = false) := by
  refine ⟨rfl, rfl, ?_, ?_⟩
  · intro amount
    unfold CtrlState.scaleAmount
    cases hproj : st.camera.projection with
    | persp p =>
      by_cases hclip : st.dolly_will_clip amount
      · simp [hclip, hproj, Projection.isPersp]
      · simp [hclip, hproj, Projection.isPersp]
    | ortho p =>
      simp [hproj, Projection.isPersp]
  · intro cpv scv res h
    unfold CtrlState.scale at h
    dsimp only at h
    cases hst : st.scaleToCursor settings cpv (scv.y * settings.scale_in) with
    | ok st2 =>
      rw [hst] at h
      simp only [Except.map, Except.ok.injEq] at h
      rw [← h]
    | error e =>
      rw [hst] at h
      simp [Except.map] at h

/-- Witness for c2_amended: the named direction shape on the sample state. -/
theorem c2_amended_witness :
    sampleStateOrtho.scale sampleSettings none none none (some ScaleDirection.outward) =
      .ok (sampleStateOrtho.scaleAmount
        (ScaleDirection.outward.value * sampleSettings.scale_step)) :=
  (c2_amended sampleSettings sampleStateOrtho none ScaleDirection.outward Vec3.zero).1

theorem dolly_will_clip_setLock (st : CtrlState) (b : Bool) (a : ℚ) :
    (st.setLock b).dolly_will_clip a = st.dolly_will_clip a := rfl

theorem scaleAmount_setLock (st : CtrlState) (b : Bool) (a : ℚ) :
    (st.setLock b).scaleAmount a =
      ((st.scaleAmount a).1, (st.scaleAmount a).2.setLock b) := by
  rcases st with ⟨sc, cam, tg, ot, lk⟩
  unfold CtrlState.scaleAmount
  have hdc : ∀ x : ℚ, (CtrlState.mk sc cam tg ot b).dolly_will_clip x =
      (CtrlState.mk sc cam tg ot lk).dolly_will_clip x := fun x => rfl
  cases hproj : cam.projection with
  | persp p =>
    simp only [CtrlState.setLock, hproj, hdc]
    split_ifs <;> rfl
  | ortho p =>
    simp only [CtrlState.setLock, hproj]

theorem scaleToCursor_setLock (settings : CamSettings) (st : CtrlState) (cpv : Vec3)
    (d : ℚ) (b : Bool) :
    (st.setLock b).scaleToCursor settings cpv d =
      (st.scaleToCursor settings cpv d).map (fun s => s.setLock b) := by
  rcases st with ⟨sc, cam, tg, ot, lk⟩
  unfold CtrlState.scaleToCursor
  cases hcc : (cam.camera_space cpv).normalizeE with
  | error e =>
    simp [CtrlState.setLock, Except.map, Bind.bind, Except.bind, hcc]
  | ok ccp =>
    simp only [CtrlState.setLock, Bind.bind, Except.bind, hcc]
    by_cases hz : ccp.z = 0
    · simp [hz, Except.map]
    · simp only [hz, if_false, if_neg hz]
      cases hproj : cam.projection with
      | ortho p =>
        by_cases hw : p.width = 0
        · simp [hproj, hw, Except.map]
        · simp only [hproj, hw, if_false, if_neg hw, Pure.pure, Except.pure, Except.map]
          rw [show (CtrlState.mk sc cam tg ot b).scaleAmount (settings.scale_speed * (d * settings.scale_step)) =
            (((CtrlState.mk sc cam tg ot lk).scaleAmount (settings.scale_speed * (d * settings.scale_step))).1,
              ((CtrlState.mk sc cam tg ot lk).scaleAmount (settings.scale_speed * (d * settings.scale_step))).2.setLock b)
            from scaleAmount_setLock (CtrlState.mk sc cam tg ot lk) b _]
          split_ifs <;> simp [CtrlState.setLock, Camera.track]
      | persp p =>
        simp only [hproj, Pure.pure, Except.pure, Except.map]
        rw [show (CtrlState.mk sc cam tg ot b).scaleAmount (settings.scale_speed * (d * settings.scale_step)) =
          (((CtrlState.mk sc cam tg ot lk).scaleAmount (settings.scale_speed * (d * settings.scale_step))).1,
            ((CtrlState.mk sc cam tg ot lk).scaleAmount (settings.scale_speed * (d * settings.scale_step))).2.setLock b)
          from scaleAmount_setLock (CtrlState.mk sc cam tg ot lk) b _]
        split_ifs <;> simp [CtrlState.setLock, Camera.track]

theorem scale_setLock (settings : CamSettings) (st : CtrlState) (b : Bool)
    (cpos cdel scr : Option Vec3) (dir : Option ScaleDirection) :
    (st.setLock b).scale settings cpos cdel scr dir =
      (st.scale settings cpos cdel scr dir).map (fun r => (r.1, r.2.setLock b)) := by
  unfold CtrlState.scale
  cases dir with
  | some d => simp [scaleAmount_setLock, Except.map]
  | none =>
    cases scr with
    | some sc2 =>
      cases cpos with
      | some cp2 =>
        dsimp only
        rw [scaleToCursor_setLock]
        cases st.scaleToCursor settings cp2 (sc2.y * settings.scale_in) <;>
          simp [Except.map]
      | none => simp [Except.map]
    | none =>
      cases cdel with
      | some cd2 => simp [scaleAmount_setLock, Except.map]
      | none => simp [Except.map]

theorem track_setLock (settings : CamSettings) (st : CtrlState) (b : Bool)
    (cd : Option Vec3) (td : Option TrackDirection) :
    (st.setLock b).track settings cd td =
      (st.track settings cd td).map (fun s => s.setLock b) := by
  rcases st with ⟨sc, cam, tg, ot, lk⟩
  unfold CtrlState.track
  cases td with
  | some d => simp [CtrlState.setLock, Except.map]
  | none =>
    cases cd with
    | some cdv =>
      dsimp only [CtrlState.setLock]
      cases cam.projection <;> simp [Except.map]
    | none => simp [Except.map]

theorem projection_toggle_setLock (settings : CamSettings) (st : CtrlState) (b : Bool) :
    (st.setLock b).projection_toggle settings =
      (st.projection_toggle settings).map (fun s => s.setLock b) := by
  rcases st with ⟨sc, cam, tg, ot, lk⟩
  unfold CtrlState.projection_toggle
  cases hproj : cam.projection with
  | persp p =>
    simp only [CtrlState.setLock, hproj]
    split_ifs with hc
    · cases sc.sphereRadiusE <;> simp [Except.map, Bind.bind, Except.bind]
    · simp [Except.map]
  | ortho p =>
    simp only [CtrlState.setLock, hproj]
    simp [Except.map]

/-- C7: with the orientation lock set, orbit, roll and view are no-ops (the
returned state is exactly the input state: camera pose, projection, target,
orbit mode and lock flag all unchanged), while track, scale and projection
toggling ignore the lock entirely: their result on a state with any lock
value equals their result on the unlocked state with the lock value carried
through. -/
theorem c7_orientation_lock (trig : ℚ → Angle) (settings : CamSettings) (st : CtrlState)
    (cd sc cp : Option Vec3) (od : Option OrbitDirection) (rd : Option RollDirection)
    (v : CameraView) (td : Option TrackDirection) (cpos cdel scr : Option Vec3)
    (dir : Option ScaleDirection) (h : st.is_locked = true) :
    CtrlState.orbit trig settings st cd sc od = .ok st ∧
    CtrlState.roll trig settings st cp cd rd = .ok st ∧
    st.view v = .ok st ∧
    (∀ b, (st.setLock b).track settings cd td =
      (st.track settings cd td).map (fun s => s.setLock b)) ∧
    (∀ b, (st.setLock b).scale settings cpos cdel scr dir =
      (st.scale settings cpos cdel scr dir).map (fun r => (r.1, r.2.setLock b))) ∧
    (∀ b, (st.setLock b).projection_toggle settings =
      (st.projection_toggle settings).map (fun s => s.setLock b)) := by
  refine ⟨?_, ?_, ?_, fun b => track_setLock settings st b cd td,
    fun b => scale_setLock settings st b cpos cdel scr dir,
    fun b => projection_toggle_setLock settings st b⟩
  · unfold CtrlState.orbit
    simp [h]
  · unfold CtrlState.roll
    simp [h]
  · unfold CtrlState.view
    simp [h]

/-- Witness for c7_orientation_lock: the locked sample state with concrete
inputs for every command shape. -/
theorem c7_witness :
    (CtrlState.mk sampleBox sampleCameraOrtho Vec3.zero OrbitType.constrained
        true).is_locked = true ∧
    CtrlState.orbit (fun _ => sampleAngle) sampleSettings
        (CtrlState.mk sampleBox sampleCameraOrtho Vec3.zero OrbitType.constrained true)
        none none (some OrbitDirection.up) =
      .ok (CtrlState.mk sampleBox sampleCameraOrtho Vec3.zero OrbitType.constrained true) := by
  refine ⟨rfl, ?_⟩
  exact (c7_orientation_lock (fun _ => sampleAngle) sampleSettings
    (CtrlState.mk sampleBox sampleCameraOrtho Vec3.zero OrbitType.constrained true)
    none none none (some OrbitDirection.up) none CameraView.front none none none none none
    rfl).1

theorem quat_conj_one : Quat.one.conj = Quat.one := by
  norm_num [Quat.conj, Quat.one]

theorem Transform.mul_def (a b : Transform) : a * b = ⟨a.q.mul b.q, a.q.rotate b.t + a.t⟩ := rfl

set_option maxHeartbeats 1600000 in
/-- C4 counterexample: the claim forces the fitted camera to sit at squared
distance sphereRadius^2 / sin^2(min(hFov, vFov)/2) from the bounds center.
For the perspective sample camera (identity orientation at z = 10, vertical
field of view a right angle, aspect 1) fitted to the sample box, the code
yields squared distance 49/4 from the bounds center while the claimed
formula yields 15, so fit does not reposition at the claimed distance. -/
theorem c4_counterexample :
    (Camera.fit sampleCameraPersp sampleBox 1).map
        (fun c => Vec3.dist2 c.position sampleBox.center) = .ok (49 / 4) ∧
    sampleBox.sphereRadius2 / samplePersp.sinSqHalfMinFov = 15 ∧
    (49 / 4 : ℚ) ≠ 15 := by
  refine ⟨?_, ?_, by norm_num⟩
  · norm_num [Camera.fit, Camera.position, Camera.track, Camera.world_to_camera,
      Transform.inverse, Transform.applyPoint, Transform.mul_def, quat_conj_one,
      Quat.rotate_one, Quat.one_mul_q, sampleCameraPersp, samplePersp, sampleBox,
      AABB.contains, AABB.center, AABB.corners, Projection.clipW, Projection.project,
      Projection.matrix, PerspectiveProjection.matrix, PerspectiveProjection.scaleFactor,
      PerspectiveProjection.depth, Mat4.ofColMajor, maxByFirst, minByLast, solve_deltas,
      Vec3.coord, Vec3.dist2, Vec3.length2, Vec3.sub, Vec3.add_def, Vec3.neg_def,
      Vec3.smul_def, List.map, List.any, Except.map, Bind.bind, Except.bind, Pure.pure,
      Except.pure, Vec3.mk.injEq, decide_eq_true_eq]
  · norm_num [AABB.sphereRadius2, AABB.center, PerspectiveProjection.sinSqHalfMinFov,
      samplePersp, sampleBox, Vec3.length2, Vec3.sub, Vec3.add_def, Vec3.smul_def]

/-- C4 amended: for a perspective projection, fit solves the two-equation
system documented in the source: after applying the deltas returned by
solve_deltas, the extreme corners v1 and v2 along the major axis land on the
opposite frustum boundary planes (where f times the shifted major coordinate
equals the shifted depth up to sign); the camera displacement follows from the corner geometry,
not from the bounding sphere radius over sin of the half field of view (the
counterexample yields squared distance 49/4 where the claimed formula gives
15). -/
theorem c4_amended (major : CoordAxis) (v1 v2 v3 v4 : Vec3) (f : ℚ) (hf : f ≠ 0) :
    f * (v1.coord major + (solve_deltas major v1 v2 v3 v4 f).1) =
      -(v1.z + (solve_deltas major v1 v2 v3 v4 f).2.2) ∧
    f * (v2.coord major + (solve_deltas major v1 v2 v3 v4 f).1) =
      v2.z + (solve_deltas major v1 v2 v3 v4 f).2.2 := by
  unfold solve_deltas
  constructor
  · field_simp
    ring
  · field_simp
    ring

/-- Witness for c4_amended at f = 1 with the extreme sample corners. -/
theorem c4_amended_witness :
    (1 : ℚ) ≠ 0 ∧
    1 * ((Vec3.mk 0 (5 / 2) (-10)).coord CoordAxis.Y +
        (solve_deltas CoordAxis.Y (Vec3.mk 0 (5 / 2) (-10)) (Vec3.mk 0 (-5 / 2) (-10))
          Vec3.zero Vec3.zero 1).1) =
      -((Vec3.mk 0 (5 / 2) (-10)).z +
        (solve_deltas CoordAxis.Y (Vec3.mk 0 (5 / 2) (-10)) (Vec3.mk 0 (-5 / 2) (-10))
          Vec3.zero Vec3.zero 1).2.2) := by
  refine ⟨by norm_num, ?_⟩
  exact (c4_amended CoordAxis.Y (Vec3.mk 0 (5 / 2) (-10)) (Vec3.mk 0 (-5 / 2) (-10))
    Vec3.zero Vec3.zero 1 (by norm_num)).1

/-- C10 counterexample: constructing a CameraController never yields the
scene bounds center as the orbit target.  Construction as written fails with
a TypeError (the default Camera builds a PerspectiveProjection without the
required vertical_fov), and the field assignments the initializer performs
set the target to the world origin unconditionally, which differs from the
center (2, 3, 4) of the concrete nonempty scene. -/
theorem c10_counterexample :
    CameraController.init (AABB.mk (Vec3.mk 1 2 3) (Vec3.mk 3 4 5)) = .error .typeError ∧
    (CameraController.initFields sampleCameraOrtho
        (AABB.mk (Vec3.mk 1 2 3) (Vec3.mk 3 4 5))).target = Vec3.zero ∧
    (AABB.mk (Vec3.mk 1 2 3) (Vec3.mk 3 4 5)).center = Vec3.mk 2 3 4 ∧
    Vec3.zero ≠ Vec3.mk 2 3 4 := by
  refine ⟨rfl, rfl, ?_, ?_⟩
  · norm_num [AABB.center, Vec3.add_def, Vec3.smul_def, Vec3.mk.injEq]
  · norm_num [Vec3.zero, Vec3.mk.injEq]

/-- C10 amended: the orbit target is always a valid point but defaults to
the world origin regardless of the scene; the initializer also starts in
CONSTRAINED orbit mode with the lock off, and default construction of the
controller (which builds Camera()) fails with a TypeError for every scene
because PerspectiveProjection requires a vertical field of view that
Camera() does not supply. -/
theorem c10_amended (camera : Camera) (scene : AABB) :
    (CameraController.initFields camera scene).target = Vec3.zero ∧
    (CameraController.initFields camera scene).orbit_type = OrbitType.constrained ∧
    (CameraController.initFields camera scene).is_locked = false ∧
    CameraController.init scene = .error .typeError :=
  ⟨rfl, rfl, rfl, rfl⟩

/-- Witness for c8_zoom_width_min at the sample projection with a large
negative amount. -/
theorem c8_witness :
    OrthoProjection.WIDTH_MIN ≤ (sampleOrtho.zoom (-1000)).width ∧
    0 < OrthoProjection.WIDTH_MIN :=
  c8_zoom_width_min sampleOrtho (-1000)

/-- Witness for c10_amended at the sample camera and scene. -/
theorem c10_amended_witness :
    (CameraController.initFields sampleCameraOrtho sampleBox).target = Vec3.zero ∧
    (CameraController.initFields sampleCameraOrtho sampleBox).orbit_type =
      OrbitType.constrained ∧
    (CameraController.initFields sampleCameraOrtho sampleBox).is_locked = false ∧
    CameraController.init sampleBox = .error .typeError :=
  c10_amended sampleCameraOrtho sampleBox
